/-
Verification development for the pi-mono "mom" bot.

Shallow embedding of the per-channel run orchestrator:
  - packages/mom/src/main.ts       : run lifecycle controller (handleEvent,
    handleStop), Slack streaming response adapter (createSlackContext), and
    message routing (OAuth commands, pending-auth completion, agent run).
  - packages/mom/src/commands.ts   : command dispatch, pending-login waiters
    (handleLogin, tryCompleteLogin) and the OAuth PKCE flow (startLogin,
    hasPendingAuth, completeLogin, removeCredentials, saveCredentials).

Modelling conventions:
  - JavaScript Map objects become association lists with JS Map semantics
    (set replaces the binding of a key, delete removes it); the iteration
    order of unrelated keys is not relied on by any theorem.
  - Times (Date.now values, createdAt, expires) are Int milliseconds.
  - External effects (Slack posting, runner abort, log output) are recorded
    as an explicit Action trace in the order the source performs them.
  - External crypto (randomBytes, sha256 + base64url) and the token
    endpoint fetch are parameters: a verifier string, a hash function, and
    a FetchResult value describing what the awaited fetch did.
  - The credential file oauth.json is modelled structurally per working
    directory: none when the file does not exist, some none when it holds
    the empty record, some (some c) when it holds an anthropic credential.
-/
import Mathlib

namespace PiMono

/-! ## Text values

Message text is represented as a list of characters so that the JS string
operations the source applies to it (trim, includes, startsWith, split)
are fully computable in the kernel. Channel ids, working directories and
fixed message strings stay String, of which only equality is used. -/

/-- Message text. -/
abbrev Str := List Char

/-- JS String.prototype.trim: strip whitespace from both ends. -/
def jsTrim (s : Str) : Str :=
  ((s.dropWhile Char.isWhitespace).reverse.dropWhile Char.isWhitespace).reverse

/-- JS String.prototype.includes for a one-character needle. -/
def strIncludes (s : Str) (c : Char) : Bool := s.contains c

/-- JS String.prototype.startsWith. -/
def strStartsWith (s p : Str) : Bool := p.isPrefixOf s

/-- JS String.prototype.split on a one-character separator. -/
def splitOnChar (c : Char) : Str → List Str
  | [] => [[]]
  | x :: rest =>
    let r := splitOnChar c rest
    if x == c then [] :: r
    else
      match r with
      | [] => [[x]]
      | h :: t => (x :: h) :: t

/-! ## Association-list maps with JS Map semantics -/

/-- Lookup of a key, as JS Map.get. -/
def mapGet {α : Type} (k : String) : List (String × α) → Option α
  | [] => none
  | (k2, v) :: rest => if k2 == k then some v else mapGet k rest

/-- Removal of a key, as JS Map.delete. -/
def mapDelete {α : Type} (k : String) (m : List (String × α)) : List (String × α) :=
  m.filter (fun e => !(e.1 == k))

/-- Insertion of a key, as JS Map.set: replaces any prior binding of the key. -/
def mapSet {α : Type} (k : String) (v : α) (m : List (String × α)) : List (String × α) :=
  (k, v) :: mapDelete k m

/-! ## OAuth PKCE flow (commands.ts, oauth part) -/

/-- Anthropic OAuth client id constant. -/
def CLIENT_ID : String := "9d1c250a-e61b-44d9-88ed-5944d1962f5e"

/-- Authorization endpoint constant. -/
def AUTHORIZE_URL : String := "https://claude.ai/oauth/authorize"

/-- Redirect URI constant. -/
def REDIRECT_URI : String := "https://console.anthropic.com/oauth/code/callback"

/-- Requested scopes constant. -/
def SCOPES : String := "org:create_api_key user:profile user:inference"

/-- Pending-auth timeout: 10 minutes in milliseconds. -/
def AUTH_TIMEOUT_MS : Int := 10 * 60 * 1000

/-- Stored OAuth credentials (the anthropic entry of oauth.json). -/
structure OAuthCredentials where
  refresh : String
  access : String
  expires : Int
deriving DecidableEq

/-- Content of the credential file when it exists: none is the empty
record, some c is a record with an anthropic credential. -/
def CredRecord : Type := Option OAuthCredentials

/-- Per-working-directory credential file state: none means the file does
not exist. -/
def CredFs : Type := String → Option CredRecord

/-- One pending PKCE authentication, keyed by channel. -/
structure PendingAuth where
  verifier : String
  challenge : String
  createdAt : Int
deriving DecidableEq

/-- The pendingAuths map. -/
def AuthMap : Type := List (String × PendingAuth)

/-- generatePKCE: the verifier is 32 random bytes base64url encoded
(a parameter here), the challenge is sha256 of the verifier, base64url
encoded (the hash is a parameter). -/
def generatePKCE (verifier : String) (sha : String → String) : String × String :=
  (verifier, sha verifier)

/-- startLogin first purges every pending auth older than the timeout. -/
def purgeExpired (now : Int) (m : AuthMap) : AuthMap :=
  m.filter (fun e => !(decide (now - e.2.createdAt > AUTH_TIMEOUT_MS)))

/-- startLogin: purge expired entries, generate PKCE values, store the
pending auth for the channel, and return the authorization URL query
parameters together with the updated map. -/
def startLogin (verifier : String) (sha : String → String) (now : Int)
    (channelId : String) (m : AuthMap) : List (String × String) × AuthMap :=
  let m1 := purgeExpired now m
  let p := generatePKCE verifier sha
  let m2 := mapSet channelId ⟨p.1, p.2, now⟩ m1
  let authParams : List (String × String) :=
    [("code", "true"),
     ("client_id", CLIENT_ID),
     ("response_type", "code"),
     ("redirect_uri", REDIRECT_URI),
     ("scope", SCOPES),
     ("code_challenge", p.2),
     ("code_challenge_method", "S256"),
     ("state", p.1)]
  (authParams, m2)

/-- hasPendingAuth: lazily drops an expired entry on access and reports
whether a live pending auth exists; returns the possibly updated map. -/
def hasPendingAuthM (now : Int) (channelId : String) (m : AuthMap) : Bool × AuthMap :=
  match mapGet channelId m with
  | none => (false, m)
  | some pending =>
    if now - pending.createdAt > AUTH_TIMEOUT_MS then (false, mapDelete channelId m)
    else (true, m)

/-- saveCredentials: writes the record with the anthropic credential to the
oauth.json of the given working directory. -/
def saveCredentials (fs : CredFs) (workingDir : String) (c : OAuthCredentials) : CredFs :=
  fun w => if w == workingDir then some (some c) else fs w

/-- removeCredentials: when the credential file exists it is overwritten
with the empty record; a missing file is left missing. -/
def removeCredentials (fs : CredFs) (workingDir : String) : CredFs :=
  fun w =>
    if w == workingDir then
      match fs workingDir with
      | none => none
      | some _ => some none
    else fs w

/-- Token endpoint response data used by completeLogin. -/
structure TokenData where
  access_token : String
  refresh_token : String
  expires_in : Int
deriving DecidableEq

/-- Outcome of the awaited token-endpoint fetch: a 2xx response with
parsed JSON, a non-2xx response whose body text was read, or a thrown
error (network failure) caught by the surrounding try. -/
inductive FetchResult where
  | ok (t : TokenData)
  | httpError (body : String)
  | threw (msg : String)
deriving DecidableEq

/-- The structured result value of completeLogin. -/
structure LoginResult where
  success : Bool
  error : Option String
deriving DecidableEq

/-- Parsing of the pasted auth code: splits on the separator into the code
and the state (the state is absent when no separator occurs). -/
def parseAuthCode (authCode : Str) : Str × Option Str :=
  let splits := splitOnChar ('#') (jsTrim authCode)
  (splits.headD ([]), splits.get? 1)

/-- JSON body of the token-exchange POST built by completeLogin. -/
structure TokenRequest where
  grant_type : String
  client_id : String
  code : Str
  state : Option Str
  redirect_uri : String
  code_verifier : String
deriving DecidableEq

/-- The token-exchange request body: the pasted text split into code and
state on the separator, together with the stored verifier. -/
def tokenExchangeRequest (pending : PendingAuth) (authCode : Str) : TokenRequest :=
  let parsed := parseAuthCode authCode
  { grant_type := "authorization_code",
    client_id := CLIENT_ID,
    code := parsed.1,
    state := parsed.2,
    redirect_uri := REDIRECT_URI,
    code_verifier := pending.verifier }

/-- completeLogin: look up the pending auth, reject when absent or
expired, otherwise exchange the code at the token endpoint (outcome given
by fetchRes); on a non-2xx response or a thrown error return a structured
failure, drop the pending entry and leave the credential file untouched;
on success save the credentials with a 5 minute expiry safety buffer and
drop the pending entry. -/
def completeLogin (now : Int) (channelId : String) (authCode : Str)
    (fetch : TokenRequest → FetchResult) (m : AuthMap) (fs : CredFs) (workingDir : String) :
    LoginResult × AuthMap × CredFs :=
  match mapGet channelId m with
  | none => (⟨false, some ("No pending login. Use /login to start.")⟩, m, fs)
  | some pending =>
    if now - pending.createdAt > AUTH_TIMEOUT_MS then
      (⟨false, some ("Login expired. Use /login to start again.")⟩, mapDelete channelId m, fs)
    else
      match fetch (tokenExchangeRequest pending authCode) with
      | FetchResult.httpError body =>
        (⟨false, some ("Token exchange failed: " ++ body)⟩, mapDelete channelId m, fs)
      | FetchResult.threw msg =>
        (⟨false, some ("Login failed: " ++ msg)⟩, mapDelete channelId m, fs)
      | FetchResult.ok t =>
        let expiresAt := now + t.expires_in * 1000 - 5 * 60 * 1000
        let credentials : OAuthCredentials :=
          { refresh := t.refresh_token, access := t.access_token, expires := expiresAt }
        (⟨true, none⟩, mapDelete channelId m, saveCredentials fs workingDir credentials)

/-! ## Run lifecycle controller (main.ts) -/

/-- Externally visible operations performed by the controller and the
Slack adapter, recorded in source order. -/
inductive Action where
  | postMessage (channel text : String)
  | updateMessage (channel ts text : String)
  | postInThread (channel parent text : String)
  | deleteMsg (channel ts : String)
  | abortRunner
  | logInfo (msg : String)
  | logWarning (msg : String)
deriving DecidableEq

/-- Whether an action posts or edits a message in the channel. -/
def isChannelPost : Action → Bool
  | Action.postMessage _ _ => true
  | Action.updateMessage _ _ _ => true
  | Action.postInThread _ _ _ => true
  | _ => false

/-- Per-channel session state (the ChannelState record of main.ts,
restricted to the mutable fields). -/
structure ChanState where
  running : Bool
  stopRequested : Bool
  stopMessageTs : Option String
deriving DecidableEq

/-- The session state a channel is created with. -/
def initChanState : ChanState :=
  { running := false, stopRequested := false, stopMessageTs := none }

/-- Stop reason reported by the awaited agent run, or a thrown error. -/
inductive RunOutcome where
  | completed
  | aborted
  | error (msg : String)
deriving DecidableEq

/-- handleStop: with a run in flight, set stopRequested, abort the runner,
post the Stopping acknowledgement and remember its ts; otherwise post that
nothing is running. The ts returned by postMessage is a parameter. -/
def handleStop (st : ChanState) (channel newTs : String) : ChanState × List Action :=
  if st.running then
    ({ st with stopRequested := true, stopMessageTs := some newTs },
     [Action.abortRunner, Action.postMessage channel ("_Stopping..._")])
  else
    (st, [Action.postMessage channel ("_Nothing running_")])

/-- The post-run reconciliation of main.ts lines 379 to 386: when the run
was aborted and a stop was requested, edit the Stopping acknowledgement in
place when its handle exists (clearing the handle), otherwise post a new
Stopped message. -/
def reconcileStop (outcome : RunOutcome) (channel : String) (st : ChanState) :
    ChanState × List Action :=
  match outcome, st.stopRequested with
  | RunOutcome.aborted, true =>
    match st.stopMessageTs with
    | some ts => ({ st with stopMessageTs := none }, [Action.updateMessage channel ts ("_Stopped_")])
    | none => (st, [Action.postMessage channel ("_Stopped_")])
  | _, _ => (st, [])

/-- Stop events delivered while the run is awaited (the controller is
single threaded, so each such event runs handleStop to completion at a
suspension point). -/
def applyStops (channel : String) (stops : List String) (st : ChanState) :
    ChanState × List Action :=
  match stops with
  | [] => (st, [])
  | ts :: rest =>
    let r1 := handleStop st channel ts
    let r2 := applyStops channel rest r1.1
    (r2.1, r1.2 ++ r2.2)

/-- The run-starting branch of handleEvent: set running and clear
stopRequested, await the agent run (during which any number of stop events
may be handled), then either reconcile an abort or, when the run threw,
log a warning in the catch; in every case the finally clears running. -/
def runSegment (channel : String) (st : ChanState) (midStops : List String)
    (outcome : RunOutcome) : ChanState × List Action :=
  let st1 := { st with running := true, stopRequested := false }
  let r := applyStops channel midStops st1
  match outcome with
  | RunOutcome.error msg =>
    ({ r.1 with running := false }, r.2 ++ [Action.logWarning msg])
  | o =>
    let r2 := reconcileStop o channel r.1
    ({ r2.1 with running := false }, r.2 ++ r2.2)

/-! ## Message routing (main.ts handleEvent dispatch) -/

/-- Which branch of handleEvent a message takes. -/
inductive Route where
  | loginCmd
  | logoutCmd
  | authStatusCmd
  | authComplete
  | agentRun
deriving DecidableEq

/-- The dispatch of handleEvent: trim the text, check the exact command
strings in source order, then treat the message as an auth completion
exactly when a live pending auth exists, the text contains the separator
and does not start with the command prefix; otherwise start a run. Only
the lazy expiry purge of hasPendingAuth touches the map here. -/
def routeEvent (m : AuthMap) (now : Int) (channel : String) (rawText : Str) :
    Route × AuthMap :=
  let text := jsTrim rawText
  if text == ("/login").toList || text == ("/login anthropic").toList then
    (Route.loginCmd, m)
  else if text == ("/logout").toList || text == ("/logout anthropic").toList then
    (Route.logoutCmd, m)
  else if text == ("/auth-status").toList || text == ("/auth").toList then
    (Route.authStatusCmd, m)
  else
    let hp := hasPendingAuthM now channel m
    if hp.1 && strIncludes text ('#') && !(strStartsWith text (("/").toList)) then
      (Route.authComplete, hp.2)
    else
      (Route.agentRun, hp.2)

/-! ## Whole-system step relation for one channel -/

/-- State threaded through a sequence of events on one channel. -/
structure SysState where
  pend : AuthMap
  chan : ChanState
  credFile : CredFs

/-- Data carried by one inbound message event: its arrival time, its text,
the verifier randomness consumed if it starts a login, the token-endpoint
behaviour if it completes one, and the stop events and agent outcome of
the run it starts if it starts one. -/
structure MsgEv where
  now : Int
  text : Str
  verifier : String
  fetch : TokenRequest → FetchResult
  midStops : List String
  outcome : RunOutcome

/-- An inbound event: a message handled by handleEvent, or a stop handled
by handleStop outside any run. -/
inductive Ev where
  | msg (e : MsgEv)
  | stop (now : Int) (ts : String)

/-- One event handled to completion. -/
def stepEv (sha : String → String) (workingDir channel : String)
    (s : SysState) (ev : Ev) : SysState :=
  match ev with
  | Ev.stop _ ts => { s with chan := (handleStop s.chan channel ts).1 }
  | Ev.msg e =>
    let r := routeEvent s.pend e.now channel e.text
    match r.1 with
    | Route.loginCmd =>
      { s with pend := (startLogin e.verifier sha e.now channel r.2).2 }
    | Route.logoutCmd =>
      { s with pend := r.2, credFile := removeCredentials s.credFile workingDir }
    | Route.authStatusCmd => { s with pend := r.2 }
    | Route.authComplete =>
      let c := completeLogin e.now channel e.text e.fetch r.2 s.credFile workingDir
      { s with pend := c.2.1, credFile := c.2.2 }
    | Route.agentRun =>
      { s with pend := r.2, chan := (runSegment channel s.chan e.midStops e.outcome).1 }

/-- The state of a channel before its first event. -/
def initSysState : SysState :=
  { pend := [], chan := initChanState, credFile := fun _ => none }

/-! ## Pending-login waiters (commands.ts, auth part) -/

/-- One pending login waiter (the resolve/reject callbacks and the timer
are identified by an abstract waiter id). -/
structure PendingLogin where
  waiterId : Nat
deriving DecidableEq

/-- The pendingLogins map. -/
def LoginMap : Type := List (String × PendingLogin)

/-- The pending-map effect of handleLogin: cancel any existing pending
login for the channel (clear its timer, reject its waiter, delete it),
then the onPrompt callback registers the new waiter. Returns the new map
and the list of rejected waiter ids. -/
def handleLoginStart (channel : String) (newWaiter : Nat) (m : LoginMap) :
    LoginMap × List Nat :=
  match mapGet channel m with
  | some existing =>
    (mapSet channel ⟨newWaiter⟩ (mapDelete channel m), [existing.waiterId])
  | none => (mapSet channel ⟨newWaiter⟩ m, [])

/-! ## Streaming response adapter (main.ts createSlackContext) -/

/-- The message handles tracked by one adapter instance. -/
structure SlackMsgState where
  messageTs : Option String
  threadMessageTs : List String
deriving DecidableEq

/-- One awaited slack.deleteMessage call: whether it throws is given by
the fails parameter; the attempt itself is always recorded. -/
def slackDelete (fails : String → Bool) (channel ts : String) :
    Except String Unit × Action :=
  (if fails ts then Except.error ("delete failed") else Except.ok (), Action.deleteMsg channel ts)

/-- The thread-message loop of deleteMessage: each deletion is attempted
inside a try whose catch ignores the error, so the loop continues past
failures. The list argument is already in reverse creation order. -/
def deleteThreadLoop (fails : String → Bool) (channel : String) :
    List String → List Action
  | [] => []
  | ts :: rest =>
    let r := slackDelete fails channel ts
    match r.1 with
    | Except.ok _ => r.2 :: deleteThreadLoop fails channel rest
    | Except.error _ => r.2 :: deleteThreadLoop fails channel rest

/-- deleteMessage: delete the tracked thread messages in reverse creation
order with per-call failures swallowed, clear the thread list, then delete
the primary message (this call is not wrapped in a try) and clear its
handle. Returns the new state, the attempted actions, and whether the
whole operation succeeded. -/
def deleteMessage (fails : String → Bool) (channel : String) (st : SlackMsgState) :
    SlackMsgState × List Action × Except String Unit :=
  let acts := deleteThreadLoop fails channel st.threadMessageTs.reverse
  let st1 := { st with threadMessageTs := ([] : List String) }
  match st1.messageTs with
  | none => (st1, acts, Except.ok ())
  | some ts =>
    let r := slackDelete fails channel ts
    match r.1 with
    | Except.ok _ => ({ st1 with messageTs := none }, acts ++ [r.2], Except.ok ())
    | Except.error e => (st1, acts ++ [r.2], Except.error e)

/-! ## Context Window Builder -/

/-- One persisted log entry as read by the window builder. -/
structure LogEntry where
  ts : Int
  text : String
deriving DecidableEq

/-- Modelled from the spec: the accumulation step of the Context Window
Builder (packages/mom/src/context/roving-window.ts is not part of the
sources; only its design document is). Walks the entries in reverse
chronological order, keeping each entry whose cost fits in the remaining
budget, and stops at the first entry that would exceed it. -/
def accumWhile (cost : LogEntry → Nat) (budget : Nat) : List LogEntry → List LogEntry
  | [] => []
  | e :: rest =>
    if cost e ≤ budget then e :: accumWhile cost (budget - cost e) rest
    else []

/-- The derived window selection result. -/
structure WindowResult where
  selected : List LogEntry
  totalTokens : Nat
  messageCount : Nat
  droppedCount : Nat
deriving DecidableEq

/-- Modelled from the spec: the reverse-order selection of the Context
Window Builder, including the edge case where even the single newest entry
exceeds the budget and is included anyway when the log is not empty. The
result is in reverse chronological order. -/
def windowPick (cost : LogEntry → Nat) (budget : Nat) (log : List LogEntry) :
    List LogEntry :=
  if (accumWhile cost budget log.reverse).isEmpty && !log.reverse.isEmpty then
    log.reverse.take 1
  else accumWhile cost budget log.reverse

/-- Modelled from the spec: selectMessagesForWindow of the Context Window
Builder. Reads the log in reverse chronological order, accumulates entries
while the running total stays within the budget, includes the single
newest entry anyway when even it exceeds the budget and the log is not
empty, and reverses the accumulated subsequence back to chronological
order before returning it with its metrics. -/
def selectMessagesForWindow (cost : LogEntry → Nat) (budget : Nat)
    (log : List LogEntry) : WindowResult :=
  let picked2 := windowPick cost budget log
  { selected := picked2.reverse,
    totalTokens := (picked2.map cost).sum,
    messageCount := picked2.length,
    droppedCount := log.length - picked2.length }
/-! ## Helper lemmas -/

theorem mapGet_mapDelete {α : Type} (k : String) (m : List (String × α)) :
    mapGet k (mapDelete k m) = none := by
  induction m with
  | nil => rfl
  | cons e rest ih =>
    simp only [mapDelete, List.filter_cons] at ih ⊢
    by_cases h : (e.1 == k) = true
    · simp [h, ih]
    · simp [mapGet, h, ih]

theorem mapGet_mapSet {α : Type} (k : String) (v : α) (m : List (String × α)) :
    mapGet k (mapSet k v m) = some v := by
  simp [mapSet, mapGet]

theorem filter_mapDelete {α : Type} (k : String) (m : List (String × α)) :
    (mapDelete k m).filter (fun e => e.1 == k) = [] := by
  induction m with
  | nil => rfl
  | cons e rest ih =>
    simp only [mapDelete, List.filter_cons] at ih ⊢
    by_cases h : (e.1 == k) = true
    · simp [h, ih]
    · simp [List.filter_cons, h, ih]

theorem filter_mapSet {α : Type} (k : String) (v : α) (m : List (String × α)) :
    (mapSet k v m).filter (fun e => e.1 == k) = [(k, v)] := by
  simp [mapSet, List.filter_cons, filter_mapDelete]

theorem accumWhile_prefix (cost : LogEntry → Nat) (budget : Nat) (l : List LogEntry) :
    accumWhile cost budget l <+: l := by
  induction l generalizing budget with
  | nil => exact List.nil_prefix
  | cons e rest ih =>
    unfold accumWhile
    by_cases h : cost e ≤ budget
    · simp only [h, if_true]
      exact List.cons_prefix_cons.mpr ⟨rfl, ih _⟩
    · simp only [h, if_false]
      exact List.nil_prefix

theorem accumWhile_sum_le (cost : LogEntry → Nat) (budget : Nat) (l : List LogEntry) :
    ((accumWhile cost budget l).map cost).sum ≤ budget := by
  induction l generalizing budget with
  | nil => simp [accumWhile]
  | cons e rest ih =>
    unfold accumWhile
    by_cases h : cost e ≤ budget
    · simp only [h, if_true, List.map_cons, List.sum_cons]
      have h2 := ih (budget - cost e)
      omega
    · simp [h]

theorem deleteThreadLoop_eq_map (fails : String → Bool) (ch : String) (l : List String) :
    deleteThreadLoop fails ch l = l.map (Action.deleteMsg ch) := by
  induction l with
  | nil => rfl
  | cons ts rest ih =>
    by_cases h : fails ts <;> simp [deleteThreadLoop, slackDelete, h, ih]

theorem reconcileStop_running (o : RunOutcome) (ch : String) (st : ChanState) :
    ((reconcileStop o ch st).1).running = st.running := by
  unfold reconcileStop
  split
  · split <;> rfl
  · rfl

theorem runSegment_running_false (ch : String) (st : ChanState) (mids : List String)
    (out : RunOutcome) : ((runSegment ch st mids out).1).running = false := by
  cases out <;> rfl

theorem stepEv_preserves_idle (sha : String → String) (wd ch : String) (s : SysState)
    (ev : Ev) (h : s.chan.running = false) :
    ((stepEv sha wd ch s ev).chan).running = false := by
  cases ev with
  | stop now ts =>
    show ((handleStop s.chan ch ts).1).running = false
    simp [handleStop, h]
  | msg e =>
    simp only [stepEv]
    split
    · exact h
    · exact h
    · exact h
    · exact h
    · exact runSegment_running_false ch s.chan e.midStops e.outcome

theorem foldl_stepEv_idle (sha : String → String) (wd ch : String) (evs : List Ev)
    (s : SysState) (h : s.chan.running = false) :
    ((evs.foldl (stepEv sha wd ch) s).chan).running = false := by
  induction evs generalizing s with
  | nil => exact h
  | cons ev rest ih =>
    exact ih (stepEv sha wd ch s ev) (stepEv_preserves_idle sha wd ch s ev h)

theorem windowPick_prefix (cost : LogEntry → Nat) (budget : Nat) (log : List LogEntry) :
    windowPick cost budget log <+: log.reverse := by
  unfold windowPick
  split
  · exact List.take_prefix 1 _
  · exact accumWhile_prefix cost budget log.reverse

theorem windowPick_budget_or_single (cost : LogEntry → Nat) (budget : Nat)
    (log : List LogEntry) :
    ((windowPick cost budget log).map cost).sum ≤ budget ∨
      (windowPick cost budget log).length = 1 := by
  unfold windowPick
  split
  · rename_i h
    right
    have hne : log.reverse ≠ [] := by
      intro hnil
      rw [hnil] at h
      simp at h
    rw [List.length_take]
    have hpos := List.length_pos.mpr hne
    omega
  · left
    exact accumWhile_sum_le cost budget log.reverse


/-! ## Claim theorems -/

/-- Claim C1: every run-starting event leaves running = false when the
handler finishes, whatever the agent outcome and whatever stop events
arrive during the run; and no finite sequence of message and stop events
on one channel, starting from the initial state, leaves running = true. -/
theorem claim_C1_running_never_wedged :
    (∀ (ch : String) (st : ChanState) (mids : List String) (out : RunOutcome),
      ((runSegment ch st mids out).1).running = false) ∧
    (∀ (sha : String → String) (wd ch : String) (evs : List Ev),
      ((evs.foldl (stepEv sha wd ch) initSysState).chan).running = false) := by
  constructor
  · exact runSegment_running_false
  · intro sha wd ch evs
    exact foldl_stepEv_idle sha wd ch evs initSysState rfl

/-- Claim C2: for every cost estimator, budget and log snapshot, the
selected window is a contiguous suffix of the log in chronological order
(no entry is dropped while an older one is kept), the dropped count
accounts for exactly the remaining entries, and the accumulated total
stays within the budget except in the single-oversized-entry case where
exactly one entry is kept. -/
theorem claim_C2_window_contiguous_suffix :
    ∀ (cost : LogEntry → Nat) (budget : Nat) (log : List LogEntry),
    (selectMessagesForWindow cost budget log).selected <:+ log ∧
    (selectMessagesForWindow cost budget log).messageCount +
      (selectMessagesForWindow cost budget log).droppedCount = log.length ∧
    ((selectMessagesForWindow cost budget log).totalTokens ≤ budget ∨
      (selectMessagesForWindow cost budget log).messageCount = 1) := by
  intro cost budget log
  have hpre : windowPick cost budget log <+: log.reverse :=
    windowPick_prefix cost budget log
  have hlen : (windowPick cost budget log).length ≤ log.length := by
    have := hpre.length_le
    simpa using this
  refine ⟨?_, ?_, ?_⟩
  · show (windowPick cost budget log).reverse <:+ log
    have := List.reverse_suffix.mpr hpre
    rwa [List.reverse_reverse] at this
  · show (windowPick cost budget log).length +
      (log.length - (windowPick cost budget log).length) = log.length
    omega
  · show ((windowPick cost budget log).map cost).sum ≤ budget ∨
      (windowPick cost budget log).length = 1
    exact windowPick_budget_or_single cost budget log

/-- Claim C3: with a live pending auth present, a failed token exchange
(non-2xx response or thrown fetch) yields a structured failure whose
message carries the response body in the non-2xx case, leaves the
credential file untouched, and removes the pending entry. -/
theorem claim_C3_failed_exchange_structured :
    ∀ (now : Int) (ch : String) (authCode : Str) (fetch : TokenRequest → FetchResult)
    (m : AuthMap) (fs : CredFs) (wd : String) (p : PendingAuth),
    mapGet ch m = some p → now - p.createdAt ≤ AUTH_TIMEOUT_MS →
    (∀ body, fetch (tokenExchangeRequest p authCode) = FetchResult.httpError body →
      completeLogin now ch authCode fetch m fs wd =
        (⟨false, some ("Token exchange failed: " ++ body)⟩, mapDelete ch m, fs)) ∧
    (∀ msg, fetch (tokenExchangeRequest p authCode) = FetchResult.threw msg →
      completeLogin now ch authCode fetch m fs wd =
        (⟨false, some ("Login failed: " ++ msg)⟩, mapDelete ch m, fs)) ∧
    mapGet ch (mapDelete ch m) = none := by
  intro now ch authCode fetch m fs wd p hm hexp
  have hlt : ¬(now - p.createdAt > AUTH_TIMEOUT_MS) := not_lt.mpr hexp
  refine ⟨?_, ?_, mapGet_mapDelete ch m⟩
  · intro body hf
    unfold completeLogin
    rw [hm]
    simp only [if_neg hlt, hf]
  · intro msg hf
    unfold completeLogin
    rw [hm]
    simp only [if_neg hlt, hf]

/-- Witness for claim C3 at a concrete failing exchange. -/
theorem claim_C3_witness :
    completeLogin 0 "C" (("abc#xyz").toList) (fun _ => FetchResult.httpError ("bad"))
        [("C", ⟨"v", "chal", 0⟩)] (fun _ => none) "w" =
      (⟨false, some ("Token exchange failed: " ++ "bad")⟩,
        mapDelete "C" [("C", ⟨"v", "chal", 0⟩)], fun _ => none) ∧
    mapGet "C" (mapDelete "C" ([("C", ⟨"v", "chal", 0⟩)] : AuthMap)) = none := by
  have h := claim_C3_failed_exchange_structured 0 "C" (("abc#xyz").toList)
    (fun _ => FetchResult.httpError ("bad")) [("C", ⟨"v", "chal", 0⟩)] (fun _ => none) "w"
    ⟨"v", "chal", 0⟩ (by decide) (by decide)
  exact ⟨h.1 "bad" rfl, h.2.2⟩

/-- Claim C4: a message is routed to the auth-completion path exactly when
a live pending auth exists, the trimmed text contains the separator and
does not start with the command prefix; and a reply without the separator
is not treated as a completion and leaves a live pending entry in place. -/
theorem claim_C4_auth_completion_routing :
    ∀ (m : AuthMap) (now : Int) (ch : String) (raw : Str),
    ((routeEvent m now ch raw).1 = Route.authComplete ↔
      ((hasPendingAuthM now ch m).1 = true ∧ strIncludes (jsTrim raw) ('#') = true ∧
        strStartsWith (jsTrim raw) (("/").toList) = false)) ∧
    (∀ p, mapGet ch m = some p → now - p.createdAt ≤ AUTH_TIMEOUT_MS →
      strIncludes (jsTrim raw) ('#') = false →
      (routeEvent m now ch raw).1 ≠ Route.authComplete ∧
      mapGet ch (routeEvent m now ch raw).2 = some p) := by
  intro m now ch raw
  simp only [routeEvent]
  by_cases h1 : (jsTrim raw == ("/login").toList ||
      jsTrim raw == ("/login anthropic").toList) = true
  · rw [if_pos h1]
    have hsw1 : strStartsWith (jsTrim raw) (("/").toList) = true := by
      have h1b : jsTrim raw = ("/login").toList ∨
          jsTrim raw = ("/login anthropic").toList := by simpa using h1
      rcases h1b with h | h <;> rw [h] <;> decide
    constructor
    · constructor
      · intro hcontra
        exact Route.noConfusion hcontra
      · rintro ⟨-, -, hsw⟩
        rw [hsw1] at hsw
        exact absurd hsw (by decide)
    · intro p hp _ _
      exact ⟨fun hcontra => Route.noConfusion hcontra, hp⟩
  · rw [if_neg h1]
    by_cases h2 : (jsTrim raw == ("/logout").toList ||
        jsTrim raw == ("/logout anthropic").toList) = true
    · rw [if_pos h2]
      have hsw2 : strStartsWith (jsTrim raw) (("/").toList) = true := by
        have h2b : jsTrim raw = ("/logout").toList ∨
            jsTrim raw = ("/logout anthropic").toList := by simpa using h2
        rcases h2b with h | h <;> rw [h] <;> decide
      constructor
      · constructor
        · intro hcontra
          exact Route.noConfusion hcontra
        · rintro ⟨-, -, hsw⟩
          rw [hsw2] at hsw
          exact absurd hsw (by decide)
      · intro p hp _ _
        exact ⟨fun hcontra => Route.noConfusion hcontra, hp⟩
    · rw [if_neg h2]
      by_cases h3 : (jsTrim raw == ("/auth-status").toList ||
          jsTrim raw == ("/auth").toList) = true
      · rw [if_pos h3]
        have hsw3 : strStartsWith (jsTrim raw) (("/").toList) = true := by
          have h3b : jsTrim raw = ("/auth-status").toList ∨
              jsTrim raw = ("/auth").toList := by simpa using h3
          rcases h3b with h | h <;> rw [h] <;> decide
        constructor
        · constructor
          · intro hcontra
            exact Route.noConfusion hcontra
          · rintro ⟨-, -, hsw⟩
            rw [hsw3] at hsw
            exact absurd hsw (by decide)
        · intro p hp _ _
          exact ⟨fun hcontra => Route.noConfusion hcontra, hp⟩
      · rw [if_neg h3]
        by_cases hc : ((hasPendingAuthM now ch m).1 && strIncludes (jsTrim raw) ('#') &&
            !(strStartsWith (jsTrim raw) (("/").toList))) = true
        · rw [if_pos hc]
          have hc3 : ((hasPendingAuthM now ch m).1 = true ∧
              strIncludes (jsTrim raw) ('#') = true) ∧
              strStartsWith (jsTrim raw) (("/").toList) = false := by
            simpa using hc
          constructor
          · constructor
            · intro _
              exact ⟨hc3.1.1, hc3.1.2, hc3.2⟩
            · intro _
              rfl
          · intro p hp hexp hinc
            rw [hinc] at hc3
            exact absurd hc3.1.2 (by decide)
        · rw [if_neg hc]
          constructor
          · constructor
            · intro hcontra
              exact Route.noConfusion hcontra
            · rintro ⟨hpa, hinc, hsw⟩
              exact absurd (by rw [hpa, hinc, hsw] ; rfl) hc
          · intro p hp hexp hinc
            refine ⟨fun hcontra => Route.noConfusion hcontra, ?_⟩
            simp only [hasPendingAuthM, hp]
            rw [if_neg (not_lt.mpr hexp)]
            exact hp

/-- Witness for claim C4 at a concrete separator-free reply. -/
theorem claim_C4_witness :
    (routeEvent [("C", ⟨"v", "chal", 0⟩)] 0 "C" (("hello").toList)).1 ≠ Route.authComplete ∧
    mapGet "C" (routeEvent [("C", ⟨"v", "chal", 0⟩)] 0 "C" (("hello").toList)).2 =
      some ⟨"v", "chal", 0⟩ :=
  (claim_C4_auth_completion_routing [("C", ⟨"v", "chal", 0⟩)] 0 "C" (("hello").toList)).2
    ⟨"v", "chal", 0⟩ (by decide) (by decide) (by decide)

/-- Claim C5: startLogin leaves exactly one pending auth entry for the
channel, the newly created one; and the waiter-based handleLogin rejects
the prior pending waiter and likewise leaves exactly the new entry. -/
theorem claim_C5_single_pending_per_channel :
    (∀ (v : String) (sha : String → String) (now : Int) (ch : String) (m : AuthMap),
      ((startLogin v sha now ch m).2).filter (fun e => e.1 == ch) =
        [(ch, ⟨v, sha v, now⟩)]) ∧
    (∀ (ch : String) (w : Nat) (m : LoginMap),
      ((handleLoginStart ch w m).1).filter (fun e => e.1 == ch) = [(ch, ⟨w⟩)] ∧
      (∀ old, mapGet ch m = some old → old.waiterId ∈ (handleLoginStart ch w m).2)) := by
  constructor
  · intro v sha now ch m
    exact filter_mapSet ch _ _
  · intro ch w m
    constructor
    · unfold handleLoginStart
      cases hm : mapGet ch m <;> simp only [] <;> exact filter_mapSet ch _ _
    · intro old hold
      unfold handleLoginStart
      rw [hold]
      simp

/-- Witness for claim C5 with a prior pending login for the channel. -/
theorem claim_C5_witness :
    ((handleLoginStart "C" 9 [("C", ⟨7⟩)]).1).filter (fun e => e.1 == "C") = [("C", ⟨9⟩)] ∧
    (7 : Nat) ∈ (handleLoginStart "C" 9 [("C", ⟨7⟩)]).2 := by
  have h := claim_C5_single_pending_per_channel.2 "C" 9 [("C", ⟨7⟩)]
  exact ⟨h.1, h.2 ⟨7⟩ rfl⟩

/-- Claim C6: an aborted run with a stop requested replaces the Stopping
acknowledgement with a terminal Stopped message, editing in place and
clearing the handle when it exists, posting a new message otherwise. -/
theorem claim_C6_stopped_ack_replacement :
    ∀ (ch : String) (st : ChanState), st.stopRequested = true →
    (∀ ts, st.stopMessageTs = some ts →
      reconcileStop RunOutcome.aborted ch st =
        ({ st with stopMessageTs := none }, [Action.updateMessage ch ts ("_Stopped_")])) ∧
    (st.stopMessageTs = none →
      reconcileStop RunOutcome.aborted ch st = (st, [Action.postMessage ch ("_Stopped_")])) := by
  intro ch st h
  constructor
  · intro ts hts
    simp [reconcileStop, h, hts]
  · intro hts
    simp [reconcileStop, h, hts]

/-- Witness for claim C6 in both the edit-in-place and post-new cases. -/
theorem claim_C6_witness :
    reconcileStop RunOutcome.aborted "C" ⟨true, true, some ("5")⟩ =
      (⟨true, true, none⟩, [Action.updateMessage "C" "5" ("_Stopped_")]) ∧
    reconcileStop RunOutcome.aborted "C" ⟨true, true, none⟩ =
      (⟨true, true, none⟩, [Action.postMessage "C" ("_Stopped_")]) :=
  ⟨(claim_C6_stopped_ack_replacement "C" ⟨true, true, some ("5")⟩ rfl).1 "5" rfl,
   (claim_C6_stopped_ack_replacement "C" ⟨true, true, none⟩ rfl).2 rfl⟩

/-- Claim C7: when the agent run throws, the controller ends with
running = false and the only action after the stop-handling phase is a
log warning, which is not a channel post: no crash propagates or is
posted to the channel. -/
theorem claim_C7_run_error_swallowed :
    ∀ (ch : String) (st : ChanState) (mids : List String) (msg : String),
    ((runSegment ch st mids (RunOutcome.error msg)).1).running = false ∧
    (runSegment ch st mids (RunOutcome.error msg)).2 =
      (applyStops ch mids { st with running := true, stopRequested := false }).2 ++
        [Action.logWarning msg] ∧
    isChannelPost (Action.logWarning msg) = false := by
  intro ch st mids msg
  exact ⟨rfl, rfl, rfl⟩

/-- Claim C8: deleteMessage attempts every tracked thread message in
reverse creation order whatever the individual failures, then attempts the
primary message, clears the thread handles, clears the primary handle when
its deletion succeeds, and is a no-op that does not throw when nothing was
ever posted. -/
theorem claim_C8_delete_best_effort :
    ∀ (fails : String → Bool) (ch : String) (st : SlackMsgState),
    (deleteMessage fails ch st).2.1 =
      st.threadMessageTs.reverse.map (Action.deleteMsg ch) ++
        (match st.messageTs with
          | none => []
          | some ts => [Action.deleteMsg ch ts]) ∧
    ((deleteMessage fails ch st).1).threadMessageTs = [] ∧
    (st.messageTs = none → st.threadMessageTs = [] →
      deleteMessage fails ch st = (st, [], Except.ok ())) ∧
    (∀ ts, st.messageTs = some ts → fails ts = false →
      ((deleteMessage fails ch st).1).messageTs = none ∧
      (deleteMessage fails ch st).2.2 = Except.ok ()) := by
  intro fails ch st
  refine ⟨?_, ?_, ?_, ?_⟩
  · unfold deleteMessage
    cases hm : st.messageTs with
    | none => simp [deleteThreadLoop_eq_map]
    | some ts =>
      by_cases hf : fails ts <;>
        simp [deleteThreadLoop_eq_map, slackDelete, hf]
  · unfold deleteMessage
    cases hm : st.messageTs with
    | none => rfl
    | some ts =>
      by_cases hf : fails ts <;> simp [slackDelete, hf]
  · intro hm ht
    unfold deleteMessage
    rw [hm, ht]
    cases st
    simp_all [deleteThreadLoop]
  · intro ts hm hf
    unfold deleteMessage
    rw [hm]
    simp [slackDelete, hf]

/-- Witness for claim C8 at a session with a primary and two thread
messages and at a session that never posted. -/
theorem claim_C8_witness :
    (((deleteMessage (fun _ => false) "C" ⟨some ("m1"), ["t1", "t2"]⟩).1).messageTs = none ∧
      (deleteMessage (fun _ => false) "C" ⟨some ("m1"), ["t1", "t2"]⟩).2.2 = Except.ok ()) ∧
    deleteMessage (fun _ => false) "C" ⟨none, []⟩ = (⟨none, []⟩, [], Except.ok ()) :=
  ⟨(claim_C8_delete_best_effort (fun _ => false) "C" ⟨some ("m1"), ["t1", "t2"]⟩).2.2.2
      "m1" rfl rfl,
   (claim_C8_delete_best_effort (fun _ => false) "C" ⟨none, []⟩).2.2.1 rfl rfl⟩

/-- Claim C9: the /logout text routes to the logout branch, and
removeCredentials overwrites an existing credential file with the empty
record rather than deleting it, per working directory. -/
theorem claim_C9_logout_overwrites :
    ∀ (fs : CredFs) (wd : String) (m : AuthMap) (now : Int) (ch : String),
    (routeEvent m now ch (("/logout").toList)).1 = Route.logoutCmd ∧
    (routeEvent m now ch (("/logout anthropic").toList)).1 = Route.logoutCmd ∧
    ((fs wd).isSome = true →
      (removeCredentials fs wd) wd = some none ∧
      ((removeCredentials fs wd) wd).isSome = true) := by
  intro fs wd m now ch
  refine ⟨rfl, rfl, ?_⟩
  intro h
  unfold removeCredentials
  cases hf : fs wd with
  | none => rw [hf] at h; exact absurd h (by simp)
  | some r => simp [hf]

/-- Witness for claim C9 at a working directory holding a credential. -/
theorem claim_C9_witness :
    (removeCredentials (fun w => if w == "wd1" then some (some ⟨"r", "a", 0⟩) else none) "wd1")
        "wd1" = some none ∧
    ((removeCredentials (fun w => if w == "wd1" then some (some ⟨"r", "a", 0⟩) else none) "wd1")
        "wd1").isSome = true :=
  (claim_C9_logout_overwrites
    (fun w => if w == "wd1" then some (some ⟨"r", "a", 0⟩) else none) "wd1" [] 0 "C").2.2 rfl

/-- Claim C10: the state query parameter of the authorization URL built by
startLogin is the stored PKCE verifier itself, and the code_challenge
parameter is the hash-derived challenge of that same verifier, which is
also what is stored for the channel. -/
theorem claim_C10_state_is_verifier :
    ∀ (verifier : String) (sha : String → String) (now : Int) (ch : String) (m : AuthMap),
    mapGet ("state") (startLogin verifier sha now ch m).1 = some verifier ∧
    mapGet ("code_challenge") (startLogin verifier sha now ch m).1 = some (sha verifier) ∧
    mapGet ch (startLogin verifier sha now ch m).2 = some ⟨verifier, sha verifier, now⟩ := by
  intro v sha now ch m
  refine ⟨rfl, rfl, ?_⟩
  exact mapGet_mapSet ch _ _

end PiMono
